import Mathlib

/-!
Verification of the Shopify-CSV-Upload-Automation pipeline (`src/main.py`).

The Python source is shallowly embedded: pure functions become Lean
functions, the HTTP / browser side effects are abstracted into explicit
oracle environments, and the orchestrator (`run`) produces an explicit
event trace.  Machine-level details (JSON parsing, actual sockets, the
Playwright DOM) are out of the model; the control flow and the data
transformations of the source are kept as written.
-/

set_option autoImplicit false
set_option maxRecDepth 8192

namespace ShopifyAuto

/-! ### Character classes

`re.findall(r'\b(\d{5,7})\b', text)` in `extract_serial_numbers`
(src/main.py:187) uses Python word boundaries.  `\b` holds between a word
character (letter, digit or underscore) and a non-word character or text
edge.  The model uses the ASCII classes; Python additionally treats
non-ASCII letters as word characters, which no claim exercises. -/

def isWordChar (c : Char) : Bool :=
  c.isAlphanum || c = '_'

/-- Python `\s` on ASCII text: space, tab, newline, carriage return,
vertical tab, form feed. -/
def pyIsSpace (c : Char) : Bool :=
  c = ' ' || c = '\t' || c = '\n' || c = '\r' || c = '\x0b' || c = '\x0c'

/-! ### STEP 2: serial extraction (src/main.py:172-188) -/

/-- Scanning engine for `re.findall(r'\b(\d{5,7})\b', s)`: the engine tries
to start a match at every position, left to right.  `atBnd` records whether
the position is preceded by a non-word character (or the text start), i.e.
whether `\b` holds there given the next character is a digit.  A match at a
position succeeds exactly when the whole maximal digit run starting there
has length 5-7 and is followed by a word boundary: `\d{5,7}` cannot stop
mid-run because no `\b` holds between two digits.  For the same reason no
match can begin inside a run, so resuming at the next character rather than
after the match is equivalent. -/
def findallScan : Bool → List Char → List String
  | _, [] => []
  | atBnd, c :: cs =>
    if c.isDigit then
      let run := c :: cs.takeWhile Char.isDigit
      let rightOk :=
        match (cs.dropWhile Char.isDigit).head? with
        | none => true
        | some d => !isWordChar d
      if atBnd && decide (5 ≤ run.length) && decide (run.length ≤ 7) && rightOk then
        String.mk run :: findallScan false cs
      else
        findallScan false cs
    else
      findallScan (!isWordChar c) cs

/-- `extract_serial_numbers` (src/main.py:172-188): returns `[]` for empty
notes, otherwise all `\b\d{5,7}\b` matches in order of occurrence. -/
def extract_serial_numbers (internal_notes : String) : List String :=
  if internal_notes = "" then []
  else findallScan true internal_notes.data

/-- Declarative reading of the specification sentence for
`extractSerials`, parameterised by which characters count as a token
boundary (`bnd`): walk the text remembering the previous character; at the
start of each maximal digit run, emit the run when it has length 5-7 and
both flanks are boundaries (a `bnd` character or a text edge). -/
def runsSerials (bnd : Char → Bool) : Option Char → List Char → List String
  | _, [] => []
  | prev, c :: cs =>
    if c.isDigit then
      let isStart :=
        match prev with
        | none => true
        | some p => !p.isDigit
      let leftOk :=
        match prev with
        | none => true
        | some p => bnd p
      let run := c :: cs.takeWhile Char.isDigit
      let rightOk :=
        match (cs.dropWhile Char.isDigit).head? with
        | none => true
        | some d => bnd d
      (if isStart && leftOk && decide (5 ≤ run.length) && decide (run.length ≤ 7) && rightOk then
        [String.mk run]
      else []) ++ runsSerials bnd (some c) cs
    else
      runsSerials bnd (some c) cs

/-- The claim's wording: digit runs of length 5-7 bounded on both sides by
a non-digit character or a text edge. -/
def claimedSerials (s : String) : List String :=
  runsSerials (fun c => !c.isDigit) none s.data

/-- The amended wording: digit runs of length 5-7 bounded on both sides by
a non-word character (not a digit, letter or underscore) or a text edge. -/
def wordBoundedSerials (s : String) : List String :=
  runsSerials (fun c => !isWordChar c) none s.data

/-! ### Data model of orders (ShipStation JSON, as read by `parse_orders`) -/

structure Item where
  sku : Option String
  deriving Repr, DecidableEq

structure Order where
  orderNumber : Option String
  internalNotes : Option String
  items : Option (List Item)
  deriving Repr, DecidableEq

/-- One flat record dict as built by `parse_orders` (src/main.py:214-240). -/
structure EnrichmentRecord where
  sku : String
  serial : String
  imei : String
  iccid : String
  sim_provider : String
  retailer : String
  status : String
  order_number : String
  raw_notes : String
  deriving Repr, DecidableEq

/-- The records emitted for one order by the loop body of `parse_orders`
(src/main.py:200-240).  `order.get("internalNotes") or ""` maps a missing
or empty notes field to `""`; `order.get(k, d)` is `Option.getD`. -/
def orderRecords (o : Order) : List EnrichmentRecord :=
  let order_number := o.orderNumber.getD ""
  let internal_notes := o.internalNotes.getD ""
  let items := o.items.getD []
  let skus := items.map (fun it => it.sku.getD "")
  let serials := extract_serial_numbers internal_notes
  if serials = [] then
    [{ sku := String.intercalate ", " skus
       serial := "NOT FOUND"
       imei := ""
       iccid := ""
       sim_provider := ""
       retailer := "shopify"
       status := "unassigned"
       order_number := order_number
       raw_notes := internal_notes.take 200 }]
  else
    serials.enum.map fun isn =>
      { sku := if isn.1 < skus.length then skus.getD isn.1 ""
               else match skus.head? with
                    | some s => s
                    | none => ""
        serial := isn.2
        imei := ""
        iccid := ""
        sim_provider := ""
        retailer := "shopify"
        status := "unassigned"
        order_number := order_number
        raw_notes := "" }

/-- `parse_orders` (src/main.py:191-243): a loop over the orders extending
one flat `records` list. -/
def parse_orders (orders : List Order) : List EnrichmentRecord :=
  orders.foldl (fun records order => records ++ orderRecords order) []

/-! ### Lemmas: serial extraction -/

theorem isWordChar_of_isDigit {c : Char} (h : c.isDigit = true) :
    isWordChar c = true := by
  simp [isWordChar, Char.isAlphanum, h]

theorem if_cons_eq_append {α : Type} (P : Prop) [Decidable P] (x : α) (L : List α) :
    (if P then x :: L else L) = (if P then [x] else []) ++ L := by
  split <;> simp

/-- The scanning engine agrees with the declarative run-picking reading,
with word characters as the non-boundary class: the engine's `atBnd` flag
coincides with "the previous character, if any, is a run-delimiting
boundary". -/
theorem findallScan_eq_runsSerials :
    ∀ (cs : List Char) (prev : Option Char),
      findallScan (match prev with | none => true | some p => !isWordChar p) cs
        = runsSerials (fun c => !isWordChar c) prev cs := by
  intro cs
  induction cs with
  | nil => intro prev; cases prev <;> rfl
  | cons c cs ih =>
    intro prev
    by_cases hd : c.isDigit
    · have hrec : findallScan false cs
          = runsSerials (fun c => !isWordChar c) (some c) cs := by
        have h2 := ih (some c)
        simp only [isWordChar_of_isDigit hd, Bool.not_true] at h2
        exact h2
      have hcond :
          (match prev with | none => true | some p => !isWordChar p)
            = ((match prev with | none => true | some p => !p.isDigit) &&
               (match prev with | none => true | some p => !isWordChar p)) := by
        cases prev with
        | none => rfl
        | some p =>
          by_cases hp : p.isDigit
          · simp [hp, isWordChar_of_isDigit hp]
          · simp [hp]
      simp only [findallScan, runsSerials, hd, if_true, hrec]
      rw [← hcond]
      cases hb : (match prev with | none => true | some p => !isWordChar p)
      · simp [hb]
      · rw [if_cons_eq_append]
    · have hrec : findallScan (!isWordChar c) cs
          = runsSerials (fun c => !isWordChar c) (some c) cs := ih (some c)
      simp only [findallScan, runsSerials, hd]
      simp [hrec]

/-! ### Lemmas: parse_orders -/

theorem foldl_append_records (f : Order → List EnrichmentRecord) :
    ∀ (orders : List Order) (init : List EnrichmentRecord),
      orders.foldl (fun records order => records ++ f order) init
        = init ++ orders.flatMap f := by
  intro orders
  induction orders with
  | nil => intro init; simp
  | cons o os ih => intro init; simp [List.foldl_cons, ih, List.append_assoc]

theorem parse_orders_eq_flatMap (orders : List Order) :
    parse_orders orders = orders.flatMap orderRecords := by
  simpa using foldl_append_records orderRecords orders []

theorem orderRecords_length_pos (o : Order) : 1 ≤ (orderRecords o).length := by
  unfold orderRecords
  by_cases h : extract_serial_numbers (o.internalNotes.getD "") = []
  · simp [h]
  · simp only [h, if_neg h, List.length_map, List.enum_length]
    exact Nat.one_le_iff_ne_zero.mpr (by simpa [List.length_eq_zero] using h)

theorem orderRecords_map_serial (o : Order)
    (h : extract_serial_numbers (o.internalNotes.getD "") ≠ []) :
    (orderRecords o).map EnrichmentRecord.serial
      = extract_serial_numbers (o.internalNotes.getD "") := by
  unfold orderRecords
  simp only [if_neg h, List.map_map]
  have : (fun isn : Nat × String => isn.2) = Prod.snd := rfl
  simp [Function.comp_def, List.enum_map_snd]

theorem orderRecords_sentinel (o : Order)
    (h : extract_serial_numbers (o.internalNotes.getD "") = []) :
    orderRecords o =
      [{ sku := String.intercalate ", " ((o.items.getD []).map (fun it => it.sku.getD ""))
         serial := "NOT FOUND"
         imei := ""
         iccid := ""
         sim_provider := ""
         retailer := "shopify"
         status := "unassigned"
         order_number := o.orderNumber.getD ""
         raw_notes := (o.internalNotes.getD "").take 200 }] := by
  unfold orderRecords
  simp [h]

theorem flatMap_length_ge {α β : Type} (f : α → List β)
    (h : ∀ a : α, 1 ≤ (f a).length) :
    ∀ l : List α, l.length ≤ (l.flatMap f).length := by
  intro l
  induction l with
  | nil => simp
  | cons a l ih =>
    simp only [List.flatMap_cons, List.length_append, List.length_cons]
    have := h a
    omega

/-! ### Claim C1 -/

/-- C1: `parse_orders` emits at least one `EnrichmentRecord` per order: it
is the concatenation of the per-order record lists; when serial extraction
on the order's notes (missing notes treated as empty text) yields N ≥ 1
serials it emits exactly those N serials in order (one record per
occurrence), and when it yields zero serials it emits exactly one sentinel
record with serial `"NOT FOUND"`, sku the comma-joined SKUs of all line
items, and raw notes excerpt the first 200 characters of the notes. -/
theorem c1_parse_orders_one_record_per_order :
    ∀ orders : List Order,
      parse_orders orders = orders.flatMap orderRecords ∧
      orders.length ≤ (parse_orders orders).length ∧
      ∀ o : Order,
        1 ≤ (orderRecords o).length ∧
        (extract_serial_numbers (o.internalNotes.getD "") ≠ [] →
          (orderRecords o).map EnrichmentRecord.serial
            = extract_serial_numbers (o.internalNotes.getD "")) ∧
        (extract_serial_numbers (o.internalNotes.getD "") = [] →
          orderRecords o =
            [{ sku := String.intercalate ", "
                 ((o.items.getD []).map (fun it => it.sku.getD ""))
               serial := "NOT FOUND"
               imei := ""
               iccid := ""
               sim_provider := ""
               retailer := "shopify"
               status := "unassigned"
               order_number := o.orderNumber.getD ""
               raw_notes := (o.internalNotes.getD "").take 200 }]) := by
  intro orders
  refine ⟨parse_orders_eq_flatMap orders, ?_, ?_⟩
  · rw [parse_orders_eq_flatMap orders]
    exact flatMap_length_ge orderRecords orderRecords_length_pos orders
  · intro o
    exact ⟨orderRecords_length_pos o, orderRecords_map_serial o,
           orderRecords_sentinel o⟩

/-- Witness for C1 at concrete orders: a two-serial order yields exactly
those two serials, and an order without notes yields the single sentinel
record. -/
theorem c1_parse_orders_one_record_per_order_witness :
    (extract_serial_numbers "263384\n274341" ≠ [] ∧
      (orderRecords { orderNumber := some "X1",
                      internalNotes := some "263384\n274341",
                      items := some [{ sku := some "A" }, { sku := some "B" }] }).map
          EnrichmentRecord.serial = extract_serial_numbers "263384\n274341") ∧
    (extract_serial_numbers "" = [] ∧
      orderRecords { orderNumber := some "X2", internalNotes := none,
                     items := some [{ sku := some "C" }] } =
        [{ sku := "C", serial := "NOT FOUND", imei := "", iccid := "",
           sim_provider := "", retailer := "shopify", status := "unassigned",
           order_number := "X2", raw_notes := "" }]) := by
  constructor
  · exact ⟨by decide,
      ((c1_parse_orders_one_record_per_order []).2.2 _).2.1 (by decide)⟩
  · refine ⟨by decide, ?_⟩
    have h := ((c1_parse_orders_one_record_per_order []).2.2
      { orderNumber := some "X2", internalNotes := none,
        items := some [{ sku := some "C" }] }).2.2 (by decide)
    simpa using h

/-! ### Claim C2 -/

/-- C2 counterexample: the claim describes the boundary condition as "a
non-digit character or a text edge".  On `"a123456"` the 6-digit run is
flanked by the non-digit `'a'` and the text edge, so the claimed reading
returns `["123456"]`, but `extract_serial_numbers` returns `[]`: Python's
`\b` is a word boundary and `'a'` is a word character, so no boundary
exists between `'a'` and `'1'`. -/
theorem c2_extract_serials_counterexample :
    extract_serial_numbers "a123456" = [] ∧
    claimedSerials "a123456" = ["123456"] ∧
    extract_serial_numbers "a123456" ≠ claimedSerials "a123456" := by
  refine ⟨by decide, by decide, by decide⟩

/-- C2 (amended): for every input text, `extract_serial_numbers` returns
exactly the maximal digit runs of length 5-7 that are bounded on both
sides by word boundaries (a non-word character — not a digit, letter or
underscore — or a text edge), in order of occurrence and without
deduplication; in particular a 6-digit run embedded inside a 12-digit
number yields no match, and a run flanked by a letter or underscore is
also excluded. -/
theorem c2_extract_serials_word_bounded :
    (∀ s : String, extract_serial_numbers s = wordBoundedSerials s) ∧
    extract_serial_numbers "call 123456789012 now" = [] ∧
    extract_serial_numbers "sn:263384,263384" = ["263384", "263384"] := by
  refine ⟨?_, by decide, by decide⟩
  intro s
  by_cases h : s = ""
  · subst h; rfl
  · unfold extract_serial_numbers wordBoundedSerials
    rw [if_neg h]
    exact findallScan_eq_runsSerials s.data none

/-! ### STEP 1: ShipStation client (src/main.py:87-165)

The HTTP layer is abstracted into an oracle `resps : Nat → HttpResp`
giving the response to the n-th request issued by `_get`. -/

structure HttpResp where
  status : Nat
  retryAfter : Option Nat
  body : String
  deriving Repr, DecidableEq

inductive GetOutcome
  | success (body : String)
  | rateLimitExhausted
  | httpError (status : Nat)
  deriving Repr, DecidableEq

/-- The retry loop of `ShipStationClient._get` (src/main.py:100-111):
`for attempt in range(5)`, a 429 sleeps and retries, any other status goes
through `raise_for_status()` (which raises exactly for 400-599) and
otherwise returns the JSON body; falling off the loop raises the
rate-limit-exceeded exception.  The pair's second component counts the
HTTP requests issued. -/
def getLoop (resps : Nat → HttpResp) : Nat → Nat → GetOutcome × Nat
  | attempt, 0 => (.rateLimitExhausted, attempt)
  | attempt, rem + 1 =>
    if (resps attempt).status = 429 then
      getLoop resps (attempt + 1) rem
    else if 400 ≤ (resps attempt).status ∧ (resps attempt).status < 600 then
      (.httpError (resps attempt).status, attempt + 1)
    else
      (.success (resps attempt).body, attempt + 1)

/-- `ShipStationClient._get`: at most 5 attempts. -/
def ssGet (resps : Nat → HttpResp) : GetOutcome × Nat :=
  getLoop resps 0 5

theorem getLoop_all429 (resps : Nat → HttpResp) :
    ∀ (rem attempt : Nat),
      (∀ i, attempt ≤ i → i < attempt + rem → (resps i).status = 429) →
      getLoop resps attempt rem = (.rateLimitExhausted, attempt + rem) := by
  intro rem
  induction rem with
  | zero => intro attempt _; rfl
  | succ r ih =>
    intro attempt h
    have h0 : (resps attempt).status = 429 := h attempt (Nat.le_refl _) (by omega)
    simp only [getLoop, h0, if_true]
    have := ih (attempt + 1) (fun i h1 h2 => h i (by omega) (by omega))
    rw [this]
    congr 1
    omega

theorem getLoop_skip429 (resps : Nat → HttpResp) :
    ∀ (j attempt rem : Nat), j ≤ rem →
      (∀ i, attempt ≤ i → i < attempt + j → (resps i).status = 429) →
      getLoop resps attempt rem = getLoop resps (attempt + j) (rem - j) := by
  intro j
  induction j with
  | zero => intro attempt rem _ _; simp
  | succ k ih =>
    intro attempt rem hle h
    obtain ⟨r, rfl⟩ : ∃ r, rem = r + 1 := ⟨rem - 1, by omega⟩
    have h0 : (resps attempt).status = 429 := h attempt (Nat.le_refl _) (by omega)
    simp only [getLoop, h0, if_true]
    have := ih (attempt + 1) r (by omega) (fun i h1 h2 => h i (by omega) (by omega))
    rw [this]
    congr 1 <;> omega

theorem getLoop_requests_le (resps : Nat → HttpResp) :
    ∀ (rem attempt : Nat), (getLoop resps attempt rem).2 ≤ attempt + rem := by
  intro rem
  induction rem with
  | zero => intro attempt; simp [getLoop]
  | succ r ih =>
    intro attempt
    simp only [getLoop]
    split
    · have := ih (attempt + 1)
      omega
    · split
      · show attempt + 1 ≤ attempt + (r + 1)
        omega
      · show attempt + 1 ≤ attempt + (r + 1)
        omega

/-! ### Claim C3 -/

/-- C3: `_get` makes at most 5 attempts.  Four 429 responses followed by a
success return the success payload on the fifth attempt; five consecutive
429 responses end in the rate-limit-exhausted failure after exactly five
attempts; a non-429, non-success status (anywhere in the attempt
sequence) fails immediately with the upstream status, with no further
request. -/
theorem c3_get_retry_ceiling :
    ∀ resps : Nat → HttpResp,
      ((∀ i, i < 4 → (resps i).status = 429) →
        (resps 4).status ≠ 429 →
        ¬(400 ≤ (resps 4).status ∧ (resps 4).status < 600) →
        ssGet resps = (.success (resps 4).body, 5)) ∧
      ((∀ i, i < 5 → (resps i).status = 429) →
        ssGet resps = (.rateLimitExhausted, 5)) ∧
      (∀ k, k < 5 →
        (∀ i, i < k → (resps i).status = 429) →
        (resps k).status ≠ 429 →
        400 ≤ (resps k).status → (resps k).status < 600 →
        ssGet resps = (.httpError (resps k).status, k + 1)) ∧
      (ssGet resps).2 ≤ 5 := by
  intro resps
  refine ⟨?_, ?_, ?_, ?_⟩
  · intro h4 hne hok
    have hskip := getLoop_skip429 resps 4 0 5 (by omega)
      (fun i h1 h2 => h4 i (by omega))
    unfold ssGet
    rw [hskip, Nat.zero_add]
    show getLoop resps 4 1 = _
    simp only [getLoop]
    rw [if_neg hne, if_neg hok]
  · intro h5
    have h := getLoop_all429 resps 5 0 (fun i h1 h2 => h5 i (by omega))
    unfold ssGet
    rw [h]
  · intro k hk h429 hne h4 h6
    have hskip := getLoop_skip429 resps k 0 5 (by omega)
      (fun i h1 h2 => h429 i (by omega))
    obtain ⟨r, hr⟩ : ∃ r, 5 - k = r + 1 := ⟨4 - k, by omega⟩
    unfold ssGet
    rw [hskip, Nat.zero_add, hr]
    simp only [getLoop]
    rw [if_neg hne, if_pos ⟨h4, h6⟩]
  · exact getLoop_requests_le resps 5 0

/-- Response sequences used to witness C3 at concrete inputs. -/
def resps4Then200 : Nat → HttpResp := fun i =>
  if i < 4 then { status := 429, retryAfter := some 1, body := "" }
  else { status := 200, retryAfter := none, body := "ok" }

def respsAll429 : Nat → HttpResp := fun _ =>
  { status := 429, retryAfter := some 1, body := "" }

def resps500First : Nat → HttpResp := fun _ =>
  { status := 500, retryAfter := none, body := "" }

/-- Witness for C3: the three scenarios evaluated at concrete response
sequences. -/
theorem c3_get_retry_ceiling_witness :
    ssGet resps4Then200 = (.success "ok", 5) ∧
    ssGet respsAll429 = (.rateLimitExhausted, 5) ∧
    ssGet resps500First = (.httpError 500, 1) := by
  refine ⟨?_, ?_, ?_⟩
  · have h := (c3_get_retry_ceiling resps4Then200).1
      (fun i hi => by simp [resps4Then200, hi])
      (by decide) (by decide)
    simpa [resps4Then200] using h
  · exact (c3_get_retry_ceiling respsAll429).2.1 (fun i _ => rfl)
  · have h := (c3_get_retry_ceiling resps500First).2.2.1 0 (by omega)
      (fun i hi => by omega) (by decide) (by decide) (by decide)
    simpa [resps500First] using h

/-! ### Pagination loop of `get_shipped_orders` (src/main.py:127-147) -/

structure Shipment where
  orderId : Option Nat
  deriving Repr, DecidableEq

/-- One `/shipments` page: the `shipments` array and the reported total
page count (`data.get("pages", 1)`: missing key defaults to 1). -/
structure ShipmentsPage where
  shipments : List Shipment
  pages : Option Nat
  deriving Repr, DecidableEq

/-- The `while True` paging loop: fetch the current page, accumulate its
shipments, stop when `page >= data.get("pages", 1)`, otherwise continue
with `page + 1`.  The Python loop is unbounded (it would not terminate if
every reported page count stayed ahead of the current page), so the model
adds a fuel bound on the iteration count; first component is the
accumulated shipment list, second the list of page numbers requested. -/
def get_shipped_orders_pageLoop (resp : Nat → ShipmentsPage) :
    Nat → Nat → List Shipment × List Nat
  | 0, _ => ([], [])
  | fuel + 1, page =>
    let data := resp page
    if data.pages.getD 1 ≤ page then
      (data.shipments, [page])
    else
      let rest := get_shipped_orders_pageLoop resp fuel (page + 1)
      (data.shipments ++ rest.1, page :: rest.2)

theorem pageLoop_const_pages (resp : Nat → ShipmentsPage) (P : Nat)
    (hP : 1 ≤ P)
    (hresp : ∀ p, 1 ≤ p → p ≤ P → (resp p).pages = some P) :
    ∀ (fuel page : Nat), 1 ≤ page → page ≤ P → P - page < fuel →
      get_shipped_orders_pageLoop resp fuel page
        = ((List.range' page (P - page + 1)).flatMap (fun p => (resp p).shipments),
           List.range' page (P - page + 1)) := by
  intro fuel
  induction fuel with
  | zero => intro page _ _ h; omega
  | succ f ih =>
    intro page h1 h2 h3
    simp only [get_shipped_orders_pageLoop, hresp page h1 h2, Option.getD_some]
    by_cases hstop : P ≤ page
    · have hpage : page = P := by omega
      rw [if_pos hstop]
      subst hpage
      simp
    · rw [if_neg hstop]
      have hrec := ih (page + 1) (by omega) (by omega) (by omega)
      have harith : P - page + 1 = (P - (page + 1) + 1) + 1 := by omega
      conv_rhs => rw [harith, List.range'_succ, List.flatMap_cons]
      rw [hrec]

/-! ### Claim C7 -/

/-- C7: the shipment-page loop stops exactly when the current page number
reaches the total page count reported by the endpoint: if every page
reports `P` total pages (with enough fuel to cover them), the loop
requests exactly pages `1, …, P`, accumulating every page's shipments —
regardless of how many shipments each page holds, including an empty
final page. -/
theorem c7_page_loop_stops_at_reported_count :
    ∀ (resp : Nat → ShipmentsPage) (P fuel : Nat),
      1 ≤ P → P ≤ fuel →
      (∀ p, 1 ≤ p → p ≤ P → (resp p).pages = some P) →
      get_shipped_orders_pageLoop resp fuel 1
        = ((List.range' 1 P).flatMap (fun p => (resp p).shipments),
           List.range' 1 P) := by
  intro resp P fuel hP hfuel hresp
  have h := pageLoop_const_pages resp P hP hresp fuel 1 (Nat.le_refl _) hP
    (by omega)
  rw [h]
  have : P - 1 + 1 = P := by omega
  rw [this]

/-- Three pages all reporting `pages = 3`; the final page is empty. -/
def pagesDemo : Nat → ShipmentsPage := fun p =>
  if p = 1 then { shipments := [{ orderId := some 11 }, { orderId := some 12 }],
                  pages := some 3 }
  else if p = 2 then { shipments := [{ orderId := some 12 }], pages := some 3 }
  else { shipments := [], pages := some 3 }

/-- Witness for C7: with reported page count 3 the loop requests exactly
pages 1, 2 and 3, even though page 3 is empty. -/
theorem c7_page_loop_stops_at_reported_count_witness :
    get_shipped_orders_pageLoop pagesDemo 10 1
      = ([{ orderId := some 11 }, { orderId := some 12 },
          { orderId := some 12 }], [1, 2, 3]) := by
  have h := c7_page_loop_stops_at_reported_count pagesDemo 3 10 (by omega)
    (by omega) (fun p h1 h2 => by interval_cases p <;> rfl)
  rw [h]
  decide

/-! ### Per-order detail fetch of `get_shipped_orders` (src/main.py:155-165) -/

/-- The per-order fetch loop: `self._get(f"/orders/.." )` inside
`try/except`; a successful fetch appends the order, a failure logs and
skips that order only.  The oracle `detail` gives `none` when the fetch
for that order ID raises. -/
def get_shipped_orders_fetchLoop (detail : Nat → Option Order) :
    List Nat → List Order
  | [] => []
  | oid :: rest =>
    match detail oid with
    | some o => o :: get_shipped_orders_fetchLoop detail rest
    | none => get_shipped_orders_fetchLoop detail rest

/-! ### Claim C8 -/

/-- C8: one failed order fetch never aborts the batch: the loop returns
exactly the successfully fetched orders (`filterMap`), a failing order ID
in the middle of the batch leaves the processing of everything around it
unchanged, and every order whose fetch succeeds appears in the result no
matter which other fetches fail. -/
theorem c8_fetch_loop_skips_failures_only :
    ∀ (detail : Nat → Option Order) (ids : List Nat),
      get_shipped_orders_fetchLoop detail ids = ids.filterMap detail ∧
      (∀ (ids1 : List Nat) (oid : Nat) (ids2 : List Nat),
        detail oid = none →
        get_shipped_orders_fetchLoop detail (ids1 ++ oid :: ids2)
          = get_shipped_orders_fetchLoop detail ids1
            ++ get_shipped_orders_fetchLoop detail ids2) ∧
      (∀ (oid : Nat) (o : Order), oid ∈ ids → detail oid = some o →
        o ∈ get_shipped_orders_fetchLoop detail ids) := by
  intro detail
  have hfm : ∀ ids : List Nat,
      get_shipped_orders_fetchLoop detail ids = ids.filterMap detail := by
    intro ids
    induction ids with
    | nil => rfl
    | cons oid rest ih =>
      simp only [get_shipped_orders_fetchLoop, List.filterMap_cons]
      cases h : detail oid <;> simp [ih]
  intro ids
  refine ⟨hfm ids, ?_, ?_⟩
  · intro ids1 oid ids2 hnone
    rw [hfm, hfm, hfm, List.filterMap_append, List.filterMap_cons, hnone]
  · intro oid o hmem hsome
    rw [hfm]
    exact List.mem_filterMap.mpr ⟨oid, hmem, hsome⟩

/-- Order-detail oracle where the fetch of order 2 fails. -/
def detailDemo : Nat → Option Order := fun oid =>
  if oid = 2 then none
  else some { orderNumber := some (toString oid), internalNotes := none,
              items := none }

/-- Witness for C8: order 2's fetch fails; orders 1 and 3 are still
fetched and returned. -/
theorem c8_fetch_loop_skips_failures_only_witness :
    get_shipped_orders_fetchLoop detailDemo ([1] ++ 2 :: [3])
      = get_shipped_orders_fetchLoop detailDemo [1]
        ++ get_shipped_orders_fetchLoop detailDemo [3] ∧
    get_shipped_orders_fetchLoop detailDemo [1, 2, 3]
      = [{ orderNumber := some "1", internalNotes := none, items := none },
         { orderNumber := some "3", internalNotes := none, items := none }] := by
  constructor
  · exact (c8_fetch_loop_skips_failures_only detailDemo []).2.1 [1] 2 [3] rfl
  · rfl

/-! ### STEP 3: GPX lookup (src/main.py:335-435)

`lookup_serial` extracts fields from the visible page text with
`re.search`.  The two patterns are fixed, so they are embedded as
specialised matchers with the engine's greedy/backtracking behaviour:
literals, `\s*`, `\s+`, and bounded digit repetitions `\d{m,n}`. -/

structure LookupResult where
  imei : String
  iccid : String
  sim_provider : String
  deriving Repr, DecidableEq

/-- Matches a literal character sequence at the head of the input and
returns the rest. -/
def stripLit : List Char → List Char → Option (List Char)
  | [], cs => some cs
  | _ :: _, [] => none
  | l :: ls, c :: cs => if c = l then stripLit ls cs else none

/-- Greedy `\s*` followed by continuation `k`: consume as much whitespace
as possible, backtracking one character at a time when `k` fails. -/
def sstarThen {α : Type} (k : List Char → Option α) : List Char → Option α
  | [] => k []
  | c :: cs =>
    if pyIsSpace c then (sstarThen k cs) <|> k (c :: cs)
    else k (c :: cs)

/-- Greedy `\s+` followed by continuation `k`: at least one whitespace
character, then as in `\s*`. -/
def splusThen {α : Type} (k : List Char → Option α) : List Char → Option α
  | [] => none
  | c :: cs => if pyIsSpace c then sstarThen k cs else none

/-- Greedy `\d{m,j}`-style repetition: try consuming `j` digits first,
then back off one at a time down to `m`.  `k` receives the digits consumed
and the rest of the input. -/
def tryDigitTakes {α : Type} (k : List Char → List Char → Option α)
    (cs : List Char) (m : Nat) : Nat → Option α
  | 0 => if m = 0 then k [] cs else none
  | j + 1 =>
    if m ≤ j + 1 then (k (cs.take (j + 1)) (cs.drop (j + 1))) <|> tryDigitTakes k cs m j
    else none

/-- Greedy `\d{m,n}` followed by `k`: the longest take is bounded by `n`
and by the maximal digit run at this position. -/
def digitsThen {α : Type} (m n : Nat) (k : List Char → List Char → Option α)
    (cs : List Char) : Option α :=
  tryDigitTakes k cs m (min n (cs.takeWhile Char.isDigit).length)

/-- `re.search`: try to match at every position, leftmost position
first. -/
def searchAux {α : Type} (f : List Char → Option α) : List Char → Option α
  | [] => f []
  | c :: cs => (f (c :: cs)) <|> searchAux f cs

/-- `re.search` variant returning the suffix that starts at the leftmost
match position (`match.start()` onwards). -/
def searchFrom {α : Type} (f : List Char → Option α) : List Char → Option (List Char)
  | [] => if (f []).isSome then some [] else none
  | c :: cs => if (f (c :: cs)).isSome then some (c :: cs) else searchFrom f cs

/-- The combined primary pattern of `lookup_serial` (src/main.py:371-375):
`Serial:\s*{serial}\s+IMEI:\s*(\d{14,15})\s+ICCID:\s*(\d{19,22})`,
anchored at one position; the groups are the IMEI and ICCID digits. -/
def matchPrimaryAt (serial : List Char) (cs : List Char) : Option (String × String) :=
  (stripLit "Serial:".data cs).bind
    (sstarThen fun cs2 =>
      (stripLit serial cs2).bind
        (splusThen fun cs4 =>
          (stripLit "IMEI:".data cs4).bind
            (sstarThen
              (digitsThen 14 15 fun imei cs7 =>
                splusThen
                  (fun cs8 =>
                    (stripLit "ICCID:".data cs8).bind
                      (sstarThen
                        (digitsThen 19 22 fun iccid _ =>
                          some (String.mk imei, String.mk iccid))))
                  cs7))))

/-- The fallback serial-token pattern `Serial:\s*{serial}`
(src/main.py:385), anchored at one position. -/
def matchSerialTokenAt (serial : List Char) (cs : List Char) : Option Unit :=
  (stripLit "Serial:".data cs).bind
    (sstarThen fun cs2 => (stripLit serial cs2).map fun _ => ())

/-- The window pattern `IMEI:\s*(\d{14,15})` (src/main.py:390), anchored
at one position. -/
def imeiPatternAt (cs : List Char) : Option String :=
  (stripLit "IMEI:".data cs).bind
    (sstarThen (digitsThen 14 15 fun ds _ => some (String.mk ds)))

/-- The window pattern `ICCID:\s*(\d{19,22})` (src/main.py:391), anchored
at one position. -/
def iccidPatternAt (cs : List Char) : Option String :=
  (stripLit "ICCID:".data cs).bind
    (sstarThen (digitsThen 19 22 fun ds _ => some (String.mk ds)))

/-- `re.search` of the combined primary pattern over the page text. -/
def primarySearch (serial text : String) : Option (String × String) :=
  searchAux (matchPrimaryAt serial.data) text.data

/-- `re.search` of the serial-token pattern, returning the text from the
match start onwards. -/
def serialTokenSearch (serial text : String) : Option (List Char) :=
  searchFrom (matchSerialTokenAt serial.data) text.data

/-- `lookup_serial` (src/main.py:335-435) as a function of the searched
serial and the settled result-surface text (`page.inner_text("body")`).
First component: the extracted fields (`sim_provider` is initialised empty
and never assigned).  Second component: whether a diagnostic screenshot
was captured (serial found but both fields missing, or serial not found at
all). -/
def lookup_serial (serial text : String) : LookupResult × Bool :=
  match primarySearch serial text with
  | some ic => ({ imei := ic.1, iccid := ic.2, sim_provider := "" }, false)
  | none =>
    match serialTokenSearch serial text with
    | some suffix =>
      let nearby := suffix.take 300
      let imei := (searchAux imeiPatternAt nearby).getD ""
      let iccid := (searchAux iccidPatternAt nearby).getD ""
      ({ imei := imei, iccid := iccid, sim_provider := "" },
       decide (imei = "" ∧ iccid = ""))
    | none => ({ imei := "", iccid := "", sim_provider := "" }, true)

/-! ### Lemmas: the lookup matchers only ever capture digit groups of the
advertised lengths -/

theorem sstarThen_some {α : Type} (k : List Char → Option α) :
    ∀ (cs : List Char) (a : α), sstarThen k cs = some a → ∃ cs', k cs' = some a := by
  intro cs
  induction cs with
  | nil => intro a h; exact ⟨[], h⟩
  | cons c cs ih =>
    intro a h
    simp only [sstarThen] at h
    by_cases hs : pyIsSpace c
    · rw [if_pos hs] at h
      cases h1 : sstarThen k cs with
      | some b =>
        rw [h1, Option.some_orElse] at h
        exact ih b h1 |>.imp fun cs' h' => h ▸ h'
      | none =>
        rw [h1, Option.none_orElse] at h
        exact ⟨c :: cs, h⟩
    · rw [if_neg hs] at h
      exact ⟨c :: cs, h⟩

theorem splusThen_some {α : Type} (k : List Char → Option α)
    (cs : List Char) (a : α) (h : splusThen k cs = some a) :
    ∃ cs', k cs' = some a := by
  match cs with
  | [] => exact absurd h (by simp [splusThen])
  | c :: cs =>
    simp only [splusThen] at h
    by_cases hs : pyIsSpace c
    · rw [if_pos hs] at h
      exact sstarThen_some k cs a h
    · rw [if_neg hs] at h
      cases h

theorem searchAux_some {α : Type} (f : List Char → Option α) :
    ∀ (cs : List Char) (a : α), searchAux f cs = some a → ∃ cs', f cs' = some a := by
  intro cs
  induction cs with
  | nil => intro a h; exact ⟨[], h⟩
  | cons c cs ih =>
    intro a h
    simp only [searchAux] at h
    cases h1 : f (c :: cs) with
    | some b =>
      rw [h1, Option.some_orElse] at h
      exact ⟨c :: cs, h1.trans h⟩
    | none =>
      rw [h1, Option.none_orElse] at h
      exact ih a h

theorem tryDigitTakes_some {α : Type} (k : List Char → List Char → Option α)
    (cs : List Char) (m : Nat) :
    ∀ (j : Nat) (a : α), tryDigitTakes k cs m j = some a →
      ∃ l, m ≤ l ∧ l ≤ j ∧ k (cs.take l) (cs.drop l) = some a := by
  intro j
  induction j with
  | zero =>
    intro a h
    simp only [tryDigitTakes] at h
    by_cases hm : m = 0
    · rw [if_pos hm] at h
      exact ⟨0, by omega, by omega, by simpa using h⟩
    · rw [if_neg hm] at h
      cases h
  | succ j ih =>
    intro a h
    simp only [tryDigitTakes] at h
    by_cases hm : m ≤ j + 1
    · rw [if_pos hm] at h
      cases h1 : k (cs.take (j + 1)) (cs.drop (j + 1)) with
      | some b =>
        rw [h1, Option.some_orElse] at h
        exact ⟨j + 1, hm, Nat.le_refl _, h1.trans h⟩
      | none =>
        rw [h1, Option.none_orElse] at h
        obtain ⟨l, h2, h3, h4⟩ := ih a h
        exact ⟨l, h2, by omega, h4⟩
    · rw [if_neg hm] at h
      cases h

theorem takeWhile_length_le {α : Type} (p : α → Bool) :
    ∀ cs : List α, (cs.takeWhile p).length ≤ cs.length := by
  intro cs
  induction cs with
  | nil => simp
  | cons c cs ih =>
    simp only [List.takeWhile_cons]
    split
    · simp only [List.length_cons]
      omega
    · simp

theorem take_all_of_le_takeWhile {α : Type} (p : α → Bool) :
    ∀ (cs : List α) (l : Nat), l ≤ (cs.takeWhile p).length →
      (cs.take l).all p = true := by
  intro cs
  induction cs with
  | nil => intro l h; simp at h; simp [h]
  | cons c cs ih =>
    intro l h
    simp only [List.takeWhile_cons] at h
    by_cases hc : p c
    · rw [if_pos hc] at h
      match l with
      | 0 => simp
      | l + 1 =>
        simp only [List.take_succ_cons, List.all_cons, hc, Bool.true_and]
        exact ih l (by simpa using h)
    · rw [if_neg hc] at h
      simp at h
      simp [h]

theorem digitsThen_some {α : Type} (m n : Nat)
    (k : List Char → List Char → Option α) (cs : List Char) (a : α)
    (h : digitsThen m n k cs = some a) :
    ∃ ds rest, ds.all Char.isDigit = true ∧ m ≤ ds.length ∧ ds.length ≤ n ∧
      k ds rest = some a := by
  obtain ⟨l, h1, h2, h3⟩ := tryDigitTakes_some k cs m _ a h
  have hlrun : l ≤ (cs.takeWhile Char.isDigit).length := by omega
  have hln : l ≤ n := by omega
  have hlen : (cs.take l).length = l := by
    have := takeWhile_length_le Char.isDigit cs
    simp [List.length_take]
    omega
  exact ⟨cs.take l, cs.drop l, take_all_of_le_takeWhile Char.isDigit cs l hlrun,
    by omega, by omega, h3⟩

/-- Any successful value of the combined primary pattern consists of a
14-15-digit IMEI group and a 19-22-digit ICCID group. -/
theorem matchPrimaryAt_digits (serial cs : List Char) (i c : String)
    (h : matchPrimaryAt serial cs = some (i, c)) :
    (i.data.all Char.isDigit = true ∧ 14 ≤ i.length ∧ i.length ≤ 15) ∧
    (c.data.all Char.isDigit = true ∧ 19 ≤ c.length ∧ c.length ≤ 22) := by
  unfold matchPrimaryAt at h
  obtain ⟨cs1, -, h⟩ := Option.bind_eq_some.mp h
  obtain ⟨cs2, h⟩ := sstarThen_some _ cs1 _ h
  obtain ⟨cs3, -, h⟩ := Option.bind_eq_some.mp h
  obtain ⟨cs4, h⟩ := splusThen_some _ cs3 _ h
  obtain ⟨cs5, -, h⟩ := Option.bind_eq_some.mp h
  obtain ⟨cs6, h⟩ := sstarThen_some _ cs5 _ h
  obtain ⟨ds, rest, hdig, h14, h15, h⟩ := digitsThen_some _ _ _ _ _ h
  obtain ⟨cs8, h⟩ := splusThen_some _ rest _ h
  obtain ⟨cs9, -, h⟩ := Option.bind_eq_some.mp h
  obtain ⟨cs10, h⟩ := sstarThen_some _ cs9 _ h
  obtain ⟨ds2, rest2, hdig2, h19, h22, h⟩ := digitsThen_some _ _ _ _ _ h
  obtain ⟨hi, hc⟩ : String.mk ds = i ∧ String.mk ds2 = c := by
    have := Option.some.inj h
    exact ⟨congrArg Prod.fst this, congrArg Prod.snd this⟩
  subst hi
  subst hc
  exact ⟨⟨hdig, h14, h15⟩, ⟨hdig2, h19, h22⟩⟩

/-- Any successful value of the window IMEI pattern is a 14-15-digit
group. -/
theorem imeiPatternAt_digits (cs : List Char) (i : String)
    (h : imeiPatternAt cs = some i) :
    i.data.all Char.isDigit = true ∧ 14 ≤ i.length ∧ i.length ≤ 15 := by
  unfold imeiPatternAt at h
  obtain ⟨cs1, -, h⟩ := Option.bind_eq_some.mp h
  obtain ⟨cs2, h⟩ := sstarThen_some _ cs1 _ h
  obtain ⟨ds, rest, hdig, h14, h15, h⟩ := digitsThen_some _ _ _ _ _ h
  obtain rfl : String.mk ds = i := Option.some.inj h
  exact ⟨hdig, h14, h15⟩

/-- Any successful value of the window ICCID pattern is a 19-22-digit
group. -/
theorem iccidPatternAt_digits (cs : List Char) (c : String)
    (h : iccidPatternAt cs = some c) :
    c.data.all Char.isDigit = true ∧ 19 ≤ c.length ∧ c.length ≤ 22 := by
  unfold iccidPatternAt at h
  obtain ⟨cs1, -, h⟩ := Option.bind_eq_some.mp h
  obtain ⟨cs2, h⟩ := sstarThen_some _ cs1 _ h
  obtain ⟨ds, rest, hdig, h19, h22, h⟩ := digitsThen_some _ _ _ _ _ h
  obtain rfl : String.mk ds = c := Option.some.inj h
  exact ⟨hdig, h19, h22⟩

theorem string_ne_empty_of_length_pos {s : String} (h : 1 ≤ s.length) :
    s ≠ "" := by
  intro he
  subst he
  simp at h

/-! ### Claim C6 -/

/-- C6: `lookup_serial` extraction is two-tier.  If the single combined
pattern (serial, then a 14-15-digit IMEI, then a 19-22-digit ICCID, in
that fixed order) matches, the result carries exactly that IMEI and ICCID
(of the advertised digit lengths) with no diagnostic capture; otherwise,
if the serial token alone is found, IMEI and ICCID are searched
independently inside the 300-character window starting at the serial
token, so either, both, or neither may be filled; if the serial token is
not found at all, every field is empty.  The function is total (the miss
is not an exception), and a diagnostic capture happens exactly when
neither tier produced any field. -/
theorem c6_lookup_two_tier :
    ∀ serial text : String,
      (∀ i c, primarySearch serial text = some (i, c) →
        lookup_serial serial text
            = ({ imei := i, iccid := c, sim_provider := "" }, false) ∧
          14 ≤ i.length ∧ i.length ≤ 15 ∧ 19 ≤ c.length ∧ c.length ≤ 22) ∧
      (∀ suffix, primarySearch serial text = none →
        serialTokenSearch serial text = some suffix →
        (lookup_serial serial text).1.imei
            = (searchAux imeiPatternAt (suffix.take 300)).getD "" ∧
        (lookup_serial serial text).1.iccid
            = (searchAux iccidPatternAt (suffix.take 300)).getD "") ∧
      (primarySearch serial text = none →
        serialTokenSearch serial text = none →
        lookup_serial serial text
          = ({ imei := "", iccid := "", sim_provider := "" }, true)) ∧
      ((lookup_serial serial text).2 = true ↔
        (lookup_serial serial text).1.imei = ""
          ∧ (lookup_serial serial text).1.iccid = "") := by
  intro serial text
  refine ⟨?_, ?_, ?_, ?_⟩
  · intro i c h
    obtain ⟨cs', h'⟩ := searchAux_some _ text.data _ h
    obtain ⟨⟨-, h14, h15⟩, ⟨-, h19, h22⟩⟩ := matchPrimaryAt_digits serial.data cs' i c h'
    refine ⟨?_, h14, h15, h19, h22⟩
    simp only [lookup_serial, h]
  · intro suffix h1 h2
    simp [lookup_serial, h1, h2]
  · intro h1 h2
    simp only [lookup_serial, h1, h2]
  · cases hp : primarySearch serial text with
    | some ic =>
      obtain ⟨cs', h'⟩ := searchAux_some _ text.data _ hp
      obtain ⟨⟨-, h14, -⟩, -⟩ :=
        matchPrimaryAt_digits serial.data cs' ic.1 ic.2 h'
      have hne : ic.1 ≠ "" := string_ne_empty_of_length_pos (by omega)
      simp only [lookup_serial, hp]
      simp [hne]
    | none =>
      cases hs : serialTokenSearch serial text with
      | some suffix =>
        simp only [lookup_serial, hp, hs]
        simp [decide_eq_true_iff]
      | none =>
        simp only [lookup_serial, hp, hs]
        simp

/-- Witness for C6: the primary pattern succeeds on the spec's example
result surface and yields exactly its IMEI and ICCID; on a surface without
the serial token both tiers miss, all fields are empty, and the diagnostic
capture fires; on a surface with only the serial token the fallback window
is searched and also leaves all fields empty with a capture. -/
theorem c6_lookup_two_tier_witness :
    (primarySearch "274341"
        "Serial: 274341 IMEI: 862601768000477 ICCID: 8901176000000000001"
        = some ("862601768000477", "8901176000000000001") ∧
      lookup_serial "274341"
        "Serial: 274341 IMEI: 862601768000477 ICCID: 8901176000000000001"
        = ({ imei := "862601768000477", iccid := "8901176000000000001",
             sim_provider := "" }, false)) ∧
    (primarySearch "274341" "nothing to see" = none ∧
      serialTokenSearch "274341" "nothing to see" = none ∧
      lookup_serial "274341" "nothing to see"
        = ({ imei := "", iccid := "", sim_provider := "" }, true)) ∧
    lookup_serial "274341" "Serial: 274341"
      = ({ imei := "", iccid := "", sim_provider := "" }, true) := by
  refine ⟨⟨?_, ?_⟩, ⟨?_, ?_, ?_⟩, ?_⟩
  · decide
  · exact (((c6_lookup_two_tier "274341"
      "Serial: 274341 IMEI: 862601768000477 ICCID: 8901176000000000001").1
      "862601768000477" "8901176000000000001") (by decide)).1
  · decide
  · decide
  · exact (c6_lookup_two_tier "274341" "nothing to see").2.2.1
      (by decide) (by decide)
  · decide

/-! ### Orchestrator model (src/main.py:527-556 and 672-758)

The effectful steps of `run` are abstracted into a `RunEnv` oracle:
`authOk` is whether `scraper.start()`'s login succeeds (the browser itself
always launches), `pageText` the settled result surface per searched
serial, `lookupRaises` whether processing that serial raises,
`csvWriteOk` whether building and writing the temp CSV file succeeds,
`copyOk` whether the dry-run `shutil.copy` succeeds, `driveOk` whether
the Google Drive upload succeeds, and `gpxUploadOk` whether
`upload_csv` succeeds.  `run` yields the event trace and the exit. -/

structure RunEnv where
  orders : List Order
  authOk : Bool
  pageText : String → String
  lookupRaises : String → Bool
  csvWriteOk : Bool
  dryRun : Bool
  copyOk : Bool
  driveOk : Bool
  gpxUploadOk : Bool

inductive Ev
  | sessionOpen
  | lookup (serial : String)
  | sessionClose
  | driveUpload (rows : List (List String))
  | gpxUpload (rows : List (List String))
  | localSave (rows : List (List String))
  deriving Repr, DecidableEq

inductive RunExit
  | noOrders
  | noRecords
  | done
  | raised (step : String)
  deriving Repr, DecidableEq

/-- In-place update of one record from a lookup result
(src/main.py:544-548): `imei`, `iccid` and `sim_provider` are overwritten
from the result, `retailer` is re-set to `"shopify"`. -/
def mergeLookup (r : EnrichmentRecord) (g : LookupResult) : EnrichmentRecord :=
  { sku := r.sku, serial := r.serial, imei := g.imei, iccid := g.iccid,
    sim_provider := g.sim_provider, retailer := "shopify", status := r.status,
    order_number := r.order_number, raw_notes := r.raw_notes }

/-- The lookup loop of `enrich_with_gpx` (src/main.py:543-549): sentinel
records (`serial = "NOT FOUND"`) are not in `to_lookup` and stay
untouched; every other record is updated in place from `lookup_serial`.
If a lookup raises, the loop stops: earlier updates stand, later records
keep their previous state.  Returns the records, the lookup events, and
whether an exception escaped the loop. -/
def gpxLoop (env : RunEnv) :
    List EnrichmentRecord → List EnrichmentRecord × List Ev × Bool
  | [] => ([], [], false)
  | r :: rs =>
    if r.serial = "NOT FOUND" then
      let rest := gpxLoop env rs
      (r :: rest.1, rest.2.1, rest.2.2)
    else if env.lookupRaises r.serial then
      (r :: rs, [Ev.lookup r.serial], true)
    else
      let r' := mergeLookup r (lookup_serial r.serial (env.pageText r.serial)).1
      let rest := gpxLoop env rs
      (r' :: rest.1, Ev.lookup r.serial :: rest.2.1, rest.2.2)

/-- `enrich_with_gpx` (src/main.py:527-556): if nothing needs a lookup
the scraper is never constructed; otherwise the browser session is opened
and, on a login failure or an exception in the lookup loop, the `except`
handler closes the session and returns the records with no open scraper.
Returns the (possibly partially) enriched records, whether the scraper is
returned still open, and the events. -/
def enrich_with_gpx (env : RunEnv) (records : List EnrichmentRecord) :
    List EnrichmentRecord × Bool × List Ev :=
  if (records.filter fun r => r.serial != "NOT FOUND").isEmpty then
    (records, false, [])
  else if env.authOk = false then
    (records, false, [Ev.sessionOpen, Ev.sessionClose])
  else
    let res := gpxLoop env records
    if res.2.2 then (res.1, false, Ev.sessionOpen :: res.2.1 ++ [Ev.sessionClose])
    else (res.1, true, Ev.sessionOpen :: res.2.1)

/-- Sheet header row (src/main.py:569): columns B and F are blank. -/
def SHEET_HEADERS : List String :=
  ["SKU", "", "Serial", "IMEI", "ICCID", "", "SIM Provider", "Retailer", "Status"]

/-- One CSV data row (src/main.py:631-634 and 714-717): columns A, B and F
are written as empty strings; the record's `sku` field is not used. -/
def csvRow (r : EnrichmentRecord) : List String :=
  ["", "", r.serial, r.imei, r.iccid, "", r.sim_provider, r.retailer, r.status]

/-- The tabular payload: header row, then one data row per record in
order; identical for the Drive upload (built in
`create_and_populate_sheet`) and the GPX upload (the temp CSV built in
`run`). -/
def buildCsvRows (records : List EnrichmentRecord) : List (List String) :=
  SHEET_HEADERS :: records.map csvRow

/-- The orchestrator `run` (src/main.py:672-758).  Control flow as in the
source: early return on no orders / no records; enrichment; the CSV is
built and written to a temp file outside any `try` (a failure there
propagates with the session still open); dry-run copies the CSV locally,
closes the session and returns; live mode uploads to Drive and then GPX
inside `try/finally`, where the Drive failure propagates (after the
`finally` closes the session) and the GPX upload failure is caught and
only logged. -/
def run (env : RunEnv) : List Ev × RunExit :=
  if env.orders.isEmpty then ([], RunExit.noOrders)
  else
    let records := parse_orders env.orders
    if records.isEmpty then ([], RunExit.noRecords)
    else
      let er := enrich_with_gpx env records
      let rows := buildCsvRows er.1
      if env.csvWriteOk = false then (er.2.2, RunExit.raised "csv write")
      else if env.dryRun then
        if env.copyOk = false then (er.2.2, RunExit.raised "dry-run copy")
        else (er.2.2 ++ [Ev.localSave rows]
                ++ (if er.2.1 then [Ev.sessionClose] else []), RunExit.done)
      else
        if env.driveOk = false then
          (er.2.2 ++ (if er.2.1 then [Ev.sessionClose] else []),
           RunExit.raised "drive upload")
        else
          (er.2.2 ++ [Ev.driveUpload rows]
              ++ (if er.2.1 then
                    (if env.gpxUploadOk then [Ev.gpxUpload rows] else [])
                  else [])
              ++ (if er.2.1 then [Ev.sessionClose] else []), RunExit.done)

def isOpenEv : Ev → Bool
  | Ev.sessionOpen => true
  | _ => false

def isCloseEv : Ev → Bool
  | Ev.sessionClose => true
  | _ => false

/-- Number of times the browser session was opened in a trace. -/
def openCount (t : List Ev) : Nat := t.countP isOpenEv

/-- Number of times `close` was invoked in a trace. -/
def closeCount (t : List Ev) : Nat := t.countP isCloseEv

/-! ### Lemmas: shapes of the traces -/

theorem gpxLoop_cons_sentinel (env : RunEnv) (r : EnrichmentRecord)
    (rs : List EnrichmentRecord) (h : r.serial = "NOT FOUND") :
    gpxLoop env (r :: rs)
      = (r :: (gpxLoop env rs).1, (gpxLoop env rs).2.1, (gpxLoop env rs).2.2) := by
  simp [gpxLoop, h]

theorem gpxLoop_cons_raise (env : RunEnv) (r : EnrichmentRecord)
    (rs : List EnrichmentRecord) (h1 : ¬r.serial = "NOT FOUND")
    (h2 : env.lookupRaises r.serial = true) :
    gpxLoop env (r :: rs) = (r :: rs, [Ev.lookup r.serial], true) := by
  simp [gpxLoop, h1, h2]

theorem gpxLoop_cons_ok (env : RunEnv) (r : EnrichmentRecord)
    (rs : List EnrichmentRecord) (h1 : ¬r.serial = "NOT FOUND")
    (h2 : env.lookupRaises r.serial = false) :
    gpxLoop env (r :: rs)
      = (mergeLookup r (lookup_serial r.serial (env.pageText r.serial)).1
           :: (gpxLoop env rs).1,
         Ev.lookup r.serial :: (gpxLoop env rs).2.1,
         (gpxLoop env rs).2.2) := by
  simp [gpxLoop, h1, h2]

theorem gpxLoop_evs_lookup (env : RunEnv) :
    ∀ rs : List EnrichmentRecord, ∀ e ∈ (gpxLoop env rs).2.1, ∃ s, e = Ev.lookup s := by
  intro rs
  induction rs with
  | nil => intro e he; exact absurd he (by simp [gpxLoop])
  | cons r rs ih =>
    intro e he
    by_cases h1 : r.serial = "NOT FOUND"
    · rw [gpxLoop_cons_sentinel env r rs h1] at he
      exact ih e he
    · cases h2 : env.lookupRaises r.serial with
      | true =>
        rw [gpxLoop_cons_raise env r rs h1 h2] at he
        simp only [List.mem_singleton] at he
        exact ⟨r.serial, he⟩
      | false =>
        rw [gpxLoop_cons_ok env r rs h1 h2] at he
        simp only [List.mem_cons] at he
        rcases he with he | he
        · exact ⟨r.serial, he⟩
        · exact ih e he

theorem enrich_cases (env : RunEnv) (records : List EnrichmentRecord) :
    enrich_with_gpx env records = (records, false, []) ∨
    (env.authOk = false ∧
      enrich_with_gpx env records
        = (records, false, [Ev.sessionOpen, Ev.sessionClose])) ∨
    (env.authOk = true ∧
      ((enrich_with_gpx env records
          = ((gpxLoop env records).1, false,
             Ev.sessionOpen :: (gpxLoop env records).2.1 ++ [Ev.sessionClose])) ∨
       (enrich_with_gpx env records
          = ((gpxLoop env records).1, true,
             Ev.sessionOpen :: (gpxLoop env records).2.1)))) := by
  unfold enrich_with_gpx
  by_cases h0 : (records.filter fun r => r.serial != "NOT FOUND").isEmpty
  · left; rw [if_pos h0]
  · rw [if_neg h0]
    cases ha : env.authOk with
    | false => right; left; exact ⟨rfl, by rw [if_pos rfl]⟩
    | true =>
      right; right
      refine ⟨rfl, ?_⟩
      rw [if_neg (by simp)]
      by_cases hr : (gpxLoop env records).2.2
      · left; rw [if_pos hr]
      · right; rw [if_neg hr]

theorem enrich_evs_shape (env : RunEnv) (records : List EnrichmentRecord) :
    ∀ e ∈ (enrich_with_gpx env records).2.2,
      e = Ev.sessionOpen ∨ e = Ev.sessionClose ∨ ∃ s, e = Ev.lookup s := by
  intro e he
  rcases enrich_cases env records with h | ⟨-, h⟩ | ⟨-, h | h⟩ <;> rw [h] at he
  · simp at he
  · simp only [List.mem_cons, List.not_mem_nil, or_false] at he
    rcases he with he | he
    · exact Or.inl he
    · exact Or.inr (Or.inl he)
  · simp only [List.mem_append, List.mem_cons, List.not_mem_nil, or_false] at he
    rcases he with (he | he) | he
    · exact Or.inl he
    · exact Or.inr (Or.inr (gpxLoop_evs_lookup env records e he))
    · exact Or.inr (Or.inl he)
  · simp only [List.mem_cons] at he
    rcases he with he | he
    · exact Or.inl he
    · exact Or.inr (Or.inr (gpxLoop_evs_lookup env records e he))

theorem enrich_evs_no_upload (env : RunEnv) (records : List EnrichmentRecord)
    (rows : List (List String)) :
    Ev.driveUpload rows ∉ (enrich_with_gpx env records).2.2 ∧
    Ev.gpxUpload rows ∉ (enrich_with_gpx env records).2.2 ∧
    Ev.localSave rows ∉ (enrich_with_gpx env records).2.2 := by
  refine ⟨fun h => ?_, fun h => ?_, fun h => ?_⟩ <;>
    rcases enrich_evs_shape env records _ h with h' | h' | ⟨s, h'⟩ <;> cases h'

theorem enrich_authFail (env : RunEnv) (records : List EnrichmentRecord)
    (h : env.authOk = false) :
    enrich_with_gpx env records = (records, false, []) ∨
    enrich_with_gpx env records
      = (records, false, [Ev.sessionOpen, Ev.sessionClose]) := by
  rcases enrich_cases env records with h' | ⟨-, h'⟩ | ⟨ha, -⟩
  · exact Or.inl h'
  · exact Or.inr h'
  · rw [h] at ha; cases ha

theorem countP_eq_zero_of_shape (p : Ev → Bool) (evs : List Ev)
    (h : ∀ e ∈ evs, p e = false) : evs.countP p = 0 :=
  List.countP_eq_zero.mpr (by intro a ha; simp [h a ha])

theorem enrich_balance (env : RunEnv) (records : List EnrichmentRecord) :
    closeCount (enrich_with_gpx env records).2.2
        + (if (enrich_with_gpx env records).2.1 then 1 else 0)
      = openCount (enrich_with_gpx env records).2.2 ∧
    openCount (enrich_with_gpx env records).2.2 ≤ 1 := by
  have hlk : ∀ q : Ev → Bool, (∀ s, q (Ev.lookup s) = false) →
      (gpxLoop env records).2.1.countP q = 0 := by
    intro q hq
    refine countP_eq_zero_of_shape q _ (fun e he => ?_)
    obtain ⟨s, rfl⟩ := gpxLoop_evs_lookup env records e he
    exact hq s
  rcases enrich_cases env records with h | ⟨-, h⟩ | ⟨-, h | h⟩ <;> rw [h] <;>
    simp only [openCount, closeCount] <;>
    simp [List.countP_cons, List.countP_append, isOpenEv, isCloseEv,
      hlk isCloseEv (fun s => rfl), hlk isOpenEv (fun s => rfl)]

/-! ### Lemmas: `sim_provider` is never assigned a nonempty value -/

theorem lookup_sim_provider_empty (serial text : String) :
    (lookup_serial serial text).1.sim_provider = "" := by
  unfold lookup_serial
  cases primarySearch serial text with
  | some ic => rfl
  | none =>
    cases serialTokenSearch serial text with
    | some suffix => rfl
    | none => rfl

theorem orderRecords_sim (o : Order) :
    ∀ r ∈ orderRecords o, r.sim_provider = "" := by
  intro r hr
  simp only [orderRecords] at hr
  split at hr
  · rcases List.mem_singleton.mp hr with rfl
    rfl
  · obtain ⟨isn, -, rfl⟩ := List.mem_map.mp hr
    rfl

theorem parse_orders_sim (orders : List Order) :
    ∀ r ∈ parse_orders orders, r.sim_provider = "" := by
  intro r hr
  rw [parse_orders_eq_flatMap] at hr
  obtain ⟨o, -, hro⟩ := List.mem_flatMap.mp hr
  exact orderRecords_sim o r hro

theorem gpxLoop_sim (env : RunEnv) :
    ∀ rs : List EnrichmentRecord, (∀ r ∈ rs, r.sim_provider = "") →
      ∀ r ∈ (gpxLoop env rs).1, r.sim_provider = "" := by
  intro rs
  induction rs with
  | nil => intro _ r hr; exact absurd hr (by simp [gpxLoop])
  | cons a rs ih =>
    intro hall r hr
    by_cases h1 : a.serial = "NOT FOUND"
    · rw [gpxLoop_cons_sentinel env a rs h1] at hr
      rcases List.mem_cons.mp hr with rfl | hr
      · exact hall r (List.mem_cons_self _ _)
      · exact ih (fun x hx => hall x (List.mem_cons_of_mem _ hx)) r hr
    · cases h2 : env.lookupRaises a.serial with
      | true =>
        rw [gpxLoop_cons_raise env a rs h1 h2] at hr
        exact hall r hr
      | false =>
        rw [gpxLoop_cons_ok env a rs h1 h2] at hr
        rcases List.mem_cons.mp hr with rfl | hr
        · exact lookup_sim_provider_empty _ _
        · exact ih (fun x hx => hall x (List.mem_cons_of_mem _ hx)) r hr

theorem enrich_sim (env : RunEnv) (records : List EnrichmentRecord)
    (hall : ∀ r ∈ records, r.sim_provider = "") :
    ∀ r ∈ (enrich_with_gpx env records).1, r.sim_provider = "" := by
  rcases enrich_cases env records with h | ⟨-, h⟩ | ⟨-, h | h⟩ <;> rw [h] <;>
    first
      | exact hall
      | exact gpxLoop_sim env records hall

/-! ### Lemmas: the orchestrator's possible traces -/

theorem run_cases (env : RunEnv) :
    (env.orders.isEmpty = true ∧ run env = ([], RunExit.noOrders)) ∨
    ((parse_orders env.orders).isEmpty = true ∧
      run env = ([], RunExit.noRecords)) ∨
    (∃ er : List EnrichmentRecord × Bool × List Ev,
      er = enrich_with_gpx env (parse_orders env.orders) ∧
      ((env.csvWriteOk = false ∧
          run env = (er.2.2, RunExit.raised "csv write")) ∨
       (env.csvWriteOk = true ∧ env.dryRun = true ∧ env.copyOk = false ∧
          run env = (er.2.2, RunExit.raised "dry-run copy")) ∨
       (env.csvWriteOk = true ∧ env.dryRun = true ∧ env.copyOk = true ∧
          run env = (er.2.2 ++ [Ev.localSave (buildCsvRows er.1)]
            ++ (if er.2.1 then [Ev.sessionClose] else []), RunExit.done)) ∨
       (env.csvWriteOk = true ∧ env.dryRun = false ∧ env.driveOk = false ∧
          run env = (er.2.2 ++ (if er.2.1 then [Ev.sessionClose] else []),
            RunExit.raised "drive upload")) ∨
       (env.csvWriteOk = true ∧ env.dryRun = false ∧ env.driveOk = true ∧
          run env = (er.2.2 ++ [Ev.driveUpload (buildCsvRows er.1)]
            ++ (if er.2.1 then
                  (if env.gpxUploadOk then
                    [Ev.gpxUpload (buildCsvRows er.1)]
                  else [])
                else [])
            ++ (if er.2.1 then [Ev.sessionClose] else []), RunExit.done)))) := by
  by_cases h0 : env.orders.isEmpty
  · left; exact ⟨h0, by simp [run, h0]⟩
  · by_cases h1 : (parse_orders env.orders).isEmpty
    · right; left; exact ⟨h1, by simp [run, h0, h1]⟩
    · right; right
      refine ⟨enrich_with_gpx env (parse_orders env.orders), rfl, ?_⟩
      cases hc : env.csvWriteOk with
      | false => exact Or.inl ⟨rfl, by simp [run, h0, h1, hc]⟩
      | true =>
        cases hd : env.dryRun with
        | true =>
          cases hcp : env.copyOk with
          | false =>
            exact Or.inr (Or.inl ⟨rfl, rfl, rfl, by simp [run, h0, h1, hc, hd, hcp]⟩)
          | true =>
            exact Or.inr (Or.inr (Or.inl
              ⟨rfl, rfl, rfl, by simp [run, h0, h1, hc, hd, hcp]⟩))
        | false =>
          cases hv : env.driveOk with
          | false =>
            exact Or.inr (Or.inr (Or.inr (Or.inl
              ⟨rfl, rfl, rfl, by simp [run, h0, h1, hc, hd, hv]⟩)))
          | true =>
            exact Or.inr (Or.inr (Or.inr (Or.inr
              ⟨rfl, rfl, rfl, by simp [run, h0, h1, hc, hd, hv]⟩)))

/-- Any payload carried by an upload event of a run is the CSV built from
the records that came out of enrichment. -/
theorem run_upload_rows (env : RunEnv) (rows : List (List String))
    (h : Ev.driveUpload rows ∈ (run env).1 ∨ Ev.gpxUpload rows ∈ (run env).1) :
    rows = buildCsvRows (enrich_with_gpx env (parse_orders env.orders)).1 := by
  have hno := enrich_evs_no_upload env (parse_orders env.orders) rows
  rcases run_cases env with ⟨-, hr⟩ | ⟨-, hr⟩ | ⟨er, rfl, hcs⟩
  · rw [hr] at h; rcases h with h | h <;> exact absurd h (List.not_mem_nil _)
  · rw [hr] at h; rcases h with h | h <;> exact absurd h (List.not_mem_nil _)
  · rcases hcs with ⟨-, hr⟩ | ⟨-, -, -, hr⟩ | ⟨-, -, -, hr⟩ | ⟨-, -, -, hr⟩ |
      ⟨-, -, -, hr⟩ <;> rw [hr] at h
    · rcases h with h | h
      · exact absurd h hno.1
      · exact absurd h hno.2.1
    · rcases h with h | h
      · exact absurd h hno.1
      · exact absurd h hno.2.1
    · exfalso
      rcases h with h | h <;>
        simp only [List.mem_append, List.mem_singleton] at h <;>
        rcases h with (h | h) | h
      · exact hno.1 h
      · cases h
      · revert h; split <;> simp
      · exact hno.2.1 h
      · cases h
      · revert h; split <;> simp
    · exfalso
      rcases h with h | h <;> simp only [List.mem_append] at h <;>
        rcases h with h | h
      · exact hno.1 h
      · revert h; split <;> simp
      · exact hno.2.1 h
      · revert h; split <;> simp
    · rcases h with h | h <;>
        simp only [List.mem_append, List.mem_singleton] at h
      · rcases h with ((h | h) | h) | h
        · exact absurd h hno.1
        · exact (Ev.driveUpload.inj h) ▸ rfl
        · exfalso; revert h; split
          · split <;> simp
          · simp
        · exfalso; revert h; split <;> simp
      · rcases h with ((h | h) | h) | h
        · exact absurd h hno.2.1
        · cases h
        · revert h; split
          · split
            · intro h
              simp only [List.mem_singleton] at h
              exact (Ev.gpxUpload.inj h) ▸ rfl
            · simp
          · simp
        · exfalso; revert h; split <;> simp

theorem closeCount_append (a b : List Ev) :
    closeCount (a ++ b) = closeCount a + closeCount b :=
  List.countP_append _ _ _

theorem openCount_append (a b : List Ev) :
    openCount (a ++ b) = openCount a + openCount b :=
  List.countP_append _ _ _

theorem closeCount_close_if (b : Bool) :
    closeCount (if b then [Ev.sessionClose] else []) = if b then 1 else 0 := by
  cases b <;> rfl

theorem openCount_close_if (b : Bool) :
    openCount (if b then [Ev.sessionClose] else []) = 0 := by
  cases b <;> rfl

theorem closeCount_localSave (rows : List (List String)) :
    closeCount [Ev.localSave rows] = 0 := rfl

theorem openCount_localSave (rows : List (List String)) :
    openCount [Ev.localSave rows] = 0 := rfl

theorem closeCount_driveUpload (rows : List (List String)) :
    closeCount [Ev.driveUpload rows] = 0 := rfl

theorem openCount_driveUpload (rows : List (List String)) :
    openCount [Ev.driveUpload rows] = 0 := rfl

theorem closeCount_gpx_if (b c : Bool) (rows : List (List String)) :
    closeCount (if b then (if c then [Ev.gpxUpload rows] else []) else []) = 0 := by
  cases b <;> cases c <;> rfl

theorem openCount_gpx_if (b c : Bool) (rows : List (List String)) :
    openCount (if b then (if c then [Ev.gpxUpload rows] else []) else []) = 0 := by
  cases b <;> cases c <;> rfl

theorem parse_orders_ne_nil (orders : List Order) (h : orders ≠ []) :
    (parse_orders orders).isEmpty = false := by
  have h1 : 1 ≤ orders.length := by
    cases orders with
    | nil => exact absurd rfl h
    | cons o os => simp
  have h2 := flatMap_length_ge orderRecords orderRecords_length_pos orders
  rw [parse_orders_eq_flatMap]
  rcases hn : orders.flatMap orderRecords with _ | ⟨a, l⟩
  · rw [hn] at h2
    simp only [List.length_nil, Nat.le_zero] at h2
    omega
  · rfl

/-! ### Claim C5 -/

/-- C5 counterexample: with the session opened (one order with a serial,
successful login and lookup) but the temp-CSV write failing, the run exits
with the propagated error and the trace contains a session open but no
session close at all: the CSV is built and written between
`enrich_with_gpx`'s return and the `try/finally`, so an error there leaks
the session.  The dry-run local copy has the same gap. -/
theorem c5_session_release_counterexample :
    openCount (run
      { orders := [{ orderNumber := some "1001", internalNotes := some "263384",
                     items := some [{ sku := some "A" }] }],
        authOk := true, pageText := fun _ => "", lookupRaises := fun _ => false,
        csvWriteOk := false, dryRun := false, copyOk := true, driveOk := true,
        gpxUploadOk := true }).1 = 1 ∧
    closeCount (run
      { orders := [{ orderNumber := some "1001", internalNotes := some "263384",
                     items := some [{ sku := some "A" }] }],
        authOk := true, pageText := fun _ => "", lookupRaises := fun _ => false,
        csvWriteOk := false, dryRun := false, copyOk := true, driveOk := true,
        gpxUploadOk := true }).1 = 0 ∧
    (run
      { orders := [{ orderNumber := some "1001", internalNotes := some "263384",
                     items := some [{ sku := some "A" }] }],
        authOk := true, pageText := fun _ => "", lookupRaises := fun _ => false,
        csvWriteOk := false, dryRun := false, copyOk := true, driveOk := true,
        gpxUploadOk := true }).2 = RunExit.raised "csv write" := by
  refine ⟨by decide, by decide, by decide⟩

/-- C5 (amended): provided the temp-CSV write succeeds (and, in dry-run
mode, the local copy succeeds), the browser session is released exactly
once whenever it was opened, on every exit path — success, dry-run,
partial lookup failure, a failed document-store upload, or a failed
console upload.  Without that proviso the guarantee fails (see the
counterexample): an error while building or persisting the CSV exits with
the session still open. -/
theorem c5_session_release_balanced :
    ∀ env : RunEnv, env.csvWriteOk = true → (env.dryRun = true → env.copyOk = true) →
      closeCount (run env).1 = openCount (run env).1 ∧
      closeCount (run env).1 ≤ 1 := by
  intro env hcsv hcopy
  obtain ⟨hbal, hle⟩ := enrich_balance env (parse_orders env.orders)
  rcases run_cases env with ⟨-, hr⟩ | ⟨-, hr⟩ | ⟨er, her, hcs⟩
  · rw [hr]; exact ⟨rfl, by decide⟩
  · rw [hr]; exact ⟨rfl, by decide⟩
  · subst her
    rcases hcs with ⟨hc, hr⟩ | ⟨-, hd, hcp, hr⟩ | ⟨-, -, -, hr⟩ | ⟨-, -, -, hr⟩ |
      ⟨-, -, -, hr⟩
    · rw [hc] at hcsv; cases hcsv
    · rw [hcopy hd] at hcp; cases hcp
    · rw [hr]
      simp only [closeCount_append, openCount_append, closeCount_localSave,
        openCount_localSave, closeCount_close_if, openCount_close_if]
      cases hb : (enrich_with_gpx env (parse_orders env.orders)).2.1 <;>
        rw [hb] at hbal <;> simp at hbal ⊢ <;> omega
    · rw [hr]
      simp only [closeCount_append, openCount_append, closeCount_close_if,
        openCount_close_if]
      cases hb : (enrich_with_gpx env (parse_orders env.orders)).2.1 <;>
        rw [hb] at hbal <;> simp at hbal ⊢ <;> omega
    · rw [hr]
      simp only [closeCount_append, openCount_append, closeCount_driveUpload,
        openCount_driveUpload, closeCount_gpx_if, openCount_gpx_if,
        closeCount_close_if, openCount_close_if]
      cases hb : (enrich_with_gpx env (parse_orders env.orders)).2.1 <;>
        rw [hb] at hbal <;> simp at hbal ⊢ <;> omega

/-- Witness for C5 (amended) at a concrete environment where every step
succeeds: the session is opened once and closed once. -/
theorem c5_session_release_balanced_witness :
    closeCount (run
      { orders := [{ orderNumber := some "1001", internalNotes := some "263384",
                     items := some [{ sku := some "A" }] }],
        authOk := true, pageText := fun _ => "", lookupRaises := fun _ => false,
        csvWriteOk := true, dryRun := false, copyOk := true, driveOk := true,
        gpxUploadOk := true }).1
      = openCount (run
      { orders := [{ orderNumber := some "1001", internalNotes := some "263384",
                     items := some [{ sku := some "A" }] }],
        authOk := true, pageText := fun _ => "", lookupRaises := fun _ => false,
        csvWriteOk := true, dryRun := false, copyOk := true, driveOk := true,
        gpxUploadOk := true }).1 ∧
    closeCount (run
      { orders := [{ orderNumber := some "1001", internalNotes := some "263384",
                     items := some [{ sku := some "A" }] }],
        authOk := true, pageText := fun _ => "", lookupRaises := fun _ => false,
        csvWriteOk := true, dryRun := false, copyOk := true, driveOk := true,
        gpxUploadOk := true }).1 ≤ 1 :=
  c5_session_release_balanced _ rfl (fun h => by cases h)

/-! ### Claim C4 -/

/-- C4 counterexample: with authentication failing (login raises inside
`scraper.start()`), one order carrying a serial, live mode, and a working
Drive upload, the run does NOT abort: `enrich_with_gpx` catches the
exception, closes the session, returns the unenriched records with no
scraper, and `run` continues — it builds the CSV, uploads it to Google
Drive and completes normally (only the console upload is skipped). -/
theorem c4_auth_failure_counterexample :
    run { orders := [{ orderNumber := some "1001", internalNotes := some "263384",
                       items := some [{ sku := some "A" }] }],
          authOk := false, pageText := fun _ => "", lookupRaises := fun _ => false,
          csvWriteOk := true, dryRun := false, copyOk := true, driveOk := true,
          gpxUploadOk := true }
      = ([Ev.sessionOpen, Ev.sessionClose,
          Ev.driveUpload [SHEET_HEADERS,
            ["", "", "263384", "", "", "", "", "shopify", "unassigned"]]],
         RunExit.done) := by
  decide

/-- C4 (amended): if authentication against the device console fails, the
lookup phase is abandoned — no lookups are performed — and the console
bulk-upload phase that depends on the session is skipped; but the run
itself is not aborted: in live mode with a working CSV write and
document-store upload it still uploads the (unenriched) payload and
completes normally. -/
theorem c4_auth_failure_degrades :
    ∀ env : RunEnv, env.authOk = false →
      (∀ s, Ev.lookup s ∉ (run env).1) ∧
      (∀ rows, Ev.gpxUpload rows ∉ (run env).1) ∧
      (env.orders ≠ [] → env.csvWriteOk = true → env.dryRun = false →
        env.driveOk = true →
        (run env).2 = RunExit.done ∧
        Ev.driveUpload (buildCsvRows (parse_orders env.orders)) ∈ (run env).1) := by
  intro env hauth
  refine ⟨?_, ?_, ?_⟩
  · intro s hmem
    rcases run_cases env with ⟨-, hr⟩ | ⟨-, hr⟩ | ⟨er, her, hcs⟩
    · rw [hr] at hmem; exact absurd hmem (List.not_mem_nil _)
    · rw [hr] at hmem; exact absurd hmem (List.not_mem_nil _)
    · subst her
      rcases enrich_authFail env (parse_orders env.orders) hauth with he | he <;>
        rcases hcs with ⟨-, hr⟩ | ⟨-, -, -, hr⟩ | ⟨-, -, -, hr⟩ | ⟨-, -, -, hr⟩ |
          ⟨-, -, -, hr⟩ <;>
        rw [hr] at hmem <;> rw [he] at hmem <;> simp at hmem
  · intro rows hmem
    rcases run_cases env with ⟨-, hr⟩ | ⟨-, hr⟩ | ⟨er, her, hcs⟩
    · rw [hr] at hmem; exact absurd hmem (List.not_mem_nil _)
    · rw [hr] at hmem; exact absurd hmem (List.not_mem_nil _)
    · subst her
      rcases enrich_authFail env (parse_orders env.orders) hauth with he | he <;>
        rcases hcs with ⟨-, hr⟩ | ⟨-, -, -, hr⟩ | ⟨-, -, -, hr⟩ | ⟨-, -, -, hr⟩ |
          ⟨-, -, -, hr⟩ <;>
        rw [hr] at hmem <;> rw [he] at hmem <;> simp at hmem
  · intro hords hcsv hdry hdrv
    rcases run_cases env with ⟨hg, hr⟩ | ⟨hg, hr⟩ | ⟨er, her, hcs⟩
    · rw [List.isEmpty_iff] at hg
      exact absurd hg hords
    · rw [parse_orders_ne_nil env.orders hords] at hg
      cases hg
    · subst her
      rcases enrich_authFail env (parse_orders env.orders) hauth with he | he <;>
        rcases hcs with ⟨hc, -⟩ | ⟨-, hd, -, -⟩ | ⟨-, hd, -, -⟩ | ⟨-, -, hv, -⟩ |
          ⟨-, -, -, hr⟩
      · rw [hc] at hcsv; cases hcsv
      · rw [hd] at hdry; cases hdry
      · rw [hd] at hdry; cases hdry
      · rw [hv] at hdrv; cases hdrv
      · rw [hr, he]; simp
      · rw [hc] at hcsv; cases hcsv
      · rw [hd] at hdry; cases hdry
      · rw [hd] at hdry; cases hdry
      · rw [hv] at hdrv; cases hdrv
      · rw [hr, he]; simp

/-- Witness for C4 (amended) at the concrete auth-failure environment of
the counterexample: no lookup happens, yet the run performs the Drive
upload and exits normally. -/
theorem c4_auth_failure_degrades_witness :
    Ev.lookup "263384" ∉ (run
      { orders := [{ orderNumber := some "1001", internalNotes := some "263384",
                     items := some [{ sku := some "A" }] }],
        authOk := false, pageText := fun _ => "", lookupRaises := fun _ => false,
        csvWriteOk := true, dryRun := false, copyOk := true, driveOk := true,
        gpxUploadOk := true }).1 ∧
    (run
      { orders := [{ orderNumber := some "1001", internalNotes := some "263384",
                     items := some [{ sku := some "A" }] }],
        authOk := false, pageText := fun _ => "", lookupRaises := fun _ => false,
        csvWriteOk := true, dryRun := false, copyOk := true, driveOk := true,
        gpxUploadOk := true }).2 = RunExit.done :=
  ⟨(c4_auth_failure_degrades _ rfl).1 "263384",
   ((c4_auth_failure_degrades _ rfl).2.2 (by decide) rfl rfl rfl).1⟩

/-! ### Claims C9 and C10 -/

/-- Environment for the payload witnesses: one order with one serial,
every effectful step succeeding, a result surface with no identifiers. -/
def envDemo : RunEnv where
  orders := [{ orderNumber := some "1001", internalNotes := some "263384",
               items := some [{ sku := some "A" }] }]
  authOk := true
  pageText := fun _ => ""
  lookupRaises := fun _ => false
  csvWriteOk := true
  dryRun := false
  copyOk := true
  driveOk := true
  gpxUploadOk := true

/-- The payload produced by `envDemo`'s run. -/
def rowsDemo : List (List String) :=
  [SHEET_HEADERS, ["", "", "263384", "", "", "", "", "shopify", "unassigned"]]

/-- C9: in every produced tabular payload — the file uploaded to the
document store and the copy uploaded to the device console alike — every
data row carries the empty string in columns A, B and F; the `sku` field
of a record is never written into the payload (changing it cannot change
the payload row), even though the header row labels column A "SKU". -/
theorem c9_payload_columns_blank :
    (∀ (r : EnrichmentRecord) (s : String), csvRow { r with sku := s } = csvRow r) ∧
    SHEET_HEADERS.get? 0 = some "SKU" ∧
    (∀ (env : RunEnv) (rows : List (List String)),
      (Ev.driveUpload rows ∈ (run env).1 ∨ Ev.gpxUpload rows ∈ (run env).1) →
      rows.head? = some SHEET_HEADERS ∧
      ∀ row ∈ rows.tail,
        row.get? 0 = some "" ∧ row.get? 1 = some "" ∧ row.get? 5 = some "") := by
  refine ⟨fun r s => rfl, rfl, ?_⟩
  intro env rows h
  obtain rfl := run_upload_rows env rows h
  refine ⟨rfl, ?_⟩
  intro row hrow
  simp only [buildCsvRows, List.tail_cons] at hrow
  obtain ⟨r, -, rfl⟩ := List.mem_map.mp hrow
  exact ⟨rfl, rfl, rfl⟩

/-- Witness for C9: the Drive payload of `envDemo`'s run has the header
row first and its single data row is blank in columns A, B and F. -/
theorem c9_payload_columns_blank_witness :
    Ev.driveUpload rowsDemo ∈ (run envDemo).1 ∧
    rowsDemo.head? = some SHEET_HEADERS ∧
    (["", "", "263384", "", "", "", "", "shopify", "unassigned"] : List String).get? 0
        = some "" ∧
    (["", "", "263384", "", "", "", "", "shopify", "unassigned"] : List String).get? 1
        = some "" ∧
    (["", "", "263384", "", "", "", "", "shopify", "unassigned"] : List String).get? 5
        = some "" := by
  have hmem : Ev.driveUpload rowsDemo ∈ (run envDemo).1 := by decide
  have h := (c9_payload_columns_blank.2.2 envDemo rowsDemo (Or.inl hmem))
  exact ⟨hmem, h.1, h.2 _ (by decide)⟩

/-- C10: `lookup_serial` returns `sim_provider` equal to the empty string
for every serial and every result surface — neither extraction tier ever
assigns it — so after enrichment the `sim_provider` field of every record
is empty, and therefore the "SIM Provider" column (index 6) of every data
row of every produced payload is empty in every run. -/
theorem c10_sim_provider_always_empty :
    (∀ serial text : String, (lookup_serial serial text).1.sim_provider = "") ∧
    (∀ (env : RunEnv) (rows : List (List String)) (row : List String),
      (Ev.driveUpload rows ∈ (run env).1 ∨ Ev.gpxUpload rows ∈ (run env).1) →
      row ∈ rows.tail → row.get? 6 = some "") := by
  refine ⟨lookup_sim_provider_empty, ?_⟩
  intro env rows row h hrow
  obtain rfl := run_upload_rows env rows h
  simp only [buildCsvRows, List.tail_cons] at hrow
  obtain ⟨r, hrmem, rfl⟩ := List.mem_map.mp hrow
  have hsim : r.sim_provider = "" :=
    enrich_sim env (parse_orders env.orders) (parse_orders_sim env.orders) r hrmem
  simp [csvRow, hsim]

/-- Witness for C10: the console payload of `envDemo`'s run has an empty
"SIM Provider" column in its data row. -/
theorem c10_sim_provider_always_empty_witness :
    Ev.gpxUpload rowsDemo ∈ (run envDemo).1 ∧
    (["", "", "263384", "", "", "", "", "shopify", "unassigned"] : List String).get? 6
        = some "" := by
  have hmem : Ev.gpxUpload rowsDemo ∈ (run envDemo).1 := by decide
  exact ⟨hmem, c10_sim_provider_always_empty.2 envDemo rowsDemo _
    (Or.inr hmem) (by decide)⟩

end ShopifyAuto
